import Mathlib

/-
Verification of src/examples/python/command_processor.py against its
specification.  The program is a thin layer of glue over a reactive-stream
library (the rx package) whose core is not part of the repository; the
observable algebra below is therefore modelled from the specification
(sections 3 and 4), while process_command, process_command_timeout,
process_errors and process_commands are translated directly from the source.
Streams are embedded as the finite trace of Notifications delivered to one
subscription; blocking delays (time.sleep) do not change the delivered trace
and are not modelled.
-/

/-- Modelled from the spec: Notification (section 3 of the spec), the closed
three-variant event type of the hidden reactive library: Next carries a
produced value, Error carries a cause, Completed carries nothing. -/
inductive Notification (T : Type) where
  | next (value : T)
  | error (cause : String)
  | completed
deriving DecidableEq

/-- Modelled from the spec: Observable (sections 3 and 4.1), a lazy
description of how to produce a stream for a consumer.  Each subscription is
an independent execution; we index subscriptions by a natural number and
record, for each subscription, the finite trace of Notifications it
delivers. -/
structure Observable (T : Type) where
  subscribe : Nat → List (Notification T)

/-- Modelled from the spec: the constructor of(items) of section 4.1, which
per subscription emits Next(item) for each item in order and then
Completed.  No per-subscription state is shared, so the trace does not
depend on the subscription index. -/
def rx.of {T : Type} (items : List T) : Observable T :=
  ⟨fun _ => items.map Notification.next ++ [Notification.completed]⟩

/-- Modelled from the spec: the visitor-style dispatch accept of section
4.3 (there called reduce): a total match over the three variants, calling
exactly the handler of the variant with its payload and returning the
result. -/
def Notification.accept {T R : Type} (n : Notification T)
    (on_next : T → R) (on_error : String → R) (on_completed : Unit → R) : R :=
  match n with
  | .next v => on_next v
  | .error c => on_error c
  | .completed => on_completed ()

/-- Outcome of running one inner subscription to the end of its trace:
it completed, it errored with a cause, or it is still pending (its producer
returned without a terminal event). -/
inductive InnerEnd where
  | done
  | errored (cause : String)
  | pending
deriving DecidableEq

/-- Values produced by an inner subscription before its terminal event,
together with how the subscription ended.  Events after a terminal are not
delivered (the library detaches the observer at the terminal). -/
def runInner {B : Type} : List (Notification B) → List B × InnerEnd
  | [] => ([], .pending)
  | .next b :: rest =>
      let r := runInner rest
      (b :: r.1, r.2)
  | .error c :: _ => ([], .errored c)
  | .completed :: _ => ([], .done)

/-- Modelled from the spec: the merged trace of the FlatMap combinator of
section 4.2 in the single-threaded synchronous scheduling of the reference
program.  The first argument counts inner subscriptions still open.  On each
source Next the worker is invoked and its inner observable subscribed
immediately; the inner values are forwarded downstream.  An Error from the
source or any inner is the single terminal event and nothing follows it
(fail-fast, rule 3); Completed is emitted exactly once, only when the source
has completed and no inner subscription is still open (rule 4). -/
def flatMapTrace {A B : Type} (worker : A → List (Notification B)) :
    Nat → List (Notification A) → List (Notification B)
  | _, [] => []
  | k, .next a :: rest =>
      let r := runInner (worker a)
      match r.2 with
      | .errored c => r.1.map Notification.next ++ [Notification.error c]
      | .done => r.1.map Notification.next ++ flatMapTrace worker k rest
      | .pending => r.1.map Notification.next ++ flatMapTrace worker (k + 1) rest
  | _, .error c :: _ => [Notification.error c]
  | k, .completed :: _ => if k = 0 then [Notification.completed] else []

/-- Modelled from the spec: the operator op.flat_map of section 4.2 lifted
to observables; the merged observable subscribes to the source and to each
inner observable under the same subscription tree. -/
def flat_map {A B : Type} (worker : A → Observable B) (source : Observable A) :
    Observable B :=
  ⟨fun s => flatMapTrace (fun a => (worker a).subscribe s) 0 (source.subscribe s)⟩

/-- Modelled from the spec: subscribing a bare function as the consumer
(the call subscribe(print) of the source, line 34).  The function is taken
as the on_next capability of the consumer; Error and Completed events reach
the default handlers and deliver no value to it.  The result is the list of
values the sink receives. -/
def subscribeNext {T : Type} (o : Observable T) (s : Nat) : List T :=
  (o.subscribe s).filterMap fun n =>
    match n with
    | .next v => some v
    | _ => none

/-- Translated from the Python string method startswith: the candidate is a
prefix of the character sequence of the string. -/
def startswith (s pre : String) : Bool :=
  pre.data.isPrefixOf s.data

/-- Translated from process_command (source lines 6 to 13): dispatch on the
command string by prefix, in order echo, then sleep, then the fallback; the
sleep branch blocks for ten seconds of real time (not modelled in the trace)
before returning of("awake"). -/
def process_command (cmd : String) : Observable String :=
  if startswith cmd "echo" then rx.of [cmd]
  else if startswith cmd "sleep" then rx.of ["awake"]
  else rx.of ["Invalid command " ++ cmd ++ " provided."]

/-- Translated from process_command_timeout (source lines 16 to 17): the
baseline timeout variant is an identity pass-through. -/
def process_command_timeout (cmd : String) : Observable String :=
  process_command cmd

/-- Translated from process_errors (source lines 20 to 25): reduce one
Notification to a user-facing string via accept. -/
def process_errors (notif : Notification String) : String :=
  notif.accept
    (fun x => x)
    (fun _ => "Your command could not be processed. Please try again.")
    (fun _ => "No more commands to process. Shutting down!")

/-- Translated from process_commands (source lines 28 to 31): pipe the
source observable of commands through flat_map with the timeout worker. -/
def process_commands (commands : Observable String) : Observable String :=
  flat_map process_command_timeout commands

/-- Decides that a delivered trace is well formed in the sense of section 3
of the spec: zero or more Next events, then at most one terminal event
(Error or Completed), and no event of any kind after a terminal. -/
def wellFormed {T : Type} : List (Notification T) → Bool
  | [] => true
  | .next _ :: rest => wellFormed rest
  | .error _ :: rest => rest.isEmpty
  | .completed :: rest => rest.isEmpty

/-- Terminal events of a trace, in order: the sublist of events that are
Error or Completed. -/
def terminals {T : Type} (l : List (Notification T)) : List (Notification T) :=
  l.filter fun n =>
    match n with
    | .next _ => false
    | _ => true

/-- Values delivered to the on_next sink of a trace. -/
def nextValues {T : Type} (l : List (Notification T)) : List T :=
  l.filterMap fun n =>
    match n with
    | .next v => some v
    | _ => none

theorem subscribeNext_eq {T : Type} (o : Observable T) (s : Nat) :
    subscribeNext o s = nextValues (o.subscribe s) := rfl

theorem terminals_map_next_append {T : Type} (bs : List T)
    (l : List (Notification T)) :
    terminals (bs.map Notification.next ++ l) = terminals l := by
  induction bs with
  | nil => rfl
  | cons b bs ih => exact ih

theorem nextValues_map_next_append {T : Type} (bs : List T)
    (l : List (Notification T)) :
    nextValues (bs.map Notification.next ++ l) = bs ++ nextValues l := by
  induction bs with
  | nil => rfl
  | cons b bs ih => exact congrArg (List.cons b) ih

/-- Claim C3: accept on any Notification invokes exactly the handler of its
variant with the correct payload and returns that result (stated
parametrically in the result type, so the result can only come from that one
handler applied to that one payload); process_errors passes a Next value
through unchanged, maps every Error to the fixed advisory string and maps
Completed to the fixed shutdown string. -/
theorem accept_dispatch_total :
    ∀ (R : Type) (v c : String) (f : String → R) (g : String → R) (h : Unit → R),
      (Notification.next v).accept f g h = f v
      ∧ (Notification.error c).accept f g h = g c
      ∧ (Notification.completed (T := String)).accept f g h = h ()
      ∧ process_errors (Notification.next v) = v
      ∧ process_errors (Notification.error c)
          = "Your command could not be processed. Please try again."
      ∧ process_errors Notification.completed
          = "No more commands to process. Shutting down!" :=
  fun _ _ _ _ _ _ => ⟨rfl, rfl, rfl, rfl, rfl, rfl⟩

/-- Claim C6: each subscription to of(items) delivers Next(item) for each
item in the given order, then exactly one Completed terminal; and any two
subscriptions deliver the same trace (each execution is independent, no
state is shared between subscriptions). -/
theorem of_per_subscription :
    ∀ (T : Type) (items : List T) (s t : Nat),
      (rx.of items).subscribe s = items.map Notification.next ++ [Notification.completed]
      ∧ nextValues ((rx.of items).subscribe s) = items
      ∧ terminals ((rx.of items).subscribe s) = [Notification.completed]
      ∧ (rx.of items).subscribe s = (rx.of items).subscribe t := by
  intro T items s t
  refine ⟨rfl, ?_, ?_, rfl⟩
  · show nextValues (items.map Notification.next ++ [Notification.completed]) = items
    rw [nextValues_map_next_append]
    simp [nextValues]
  · show terminals (items.map Notification.next ++ [Notification.completed])
        = [Notification.completed]
    rw [terminals_map_next_append]
    rfl

/-- Claim C7: for every command string the worker returns an observable
whose every subscription emits exactly one Next (of some result string) then
Completed; for the command bogus the Next value is the interpolated invalid
message. -/
theorem process_command_emits_single_next :
    ∀ (cmd : String) (s : Nat),
      (∃ r, (process_command cmd).subscribe s
          = [Notification.next r, Notification.completed])
      ∧ (process_command "bogus").subscribe s
          = [Notification.next "Invalid command bogus provided.", Notification.completed] := by
  intro cmd s
  constructor
  · unfold process_command
    split
    · exact ⟨cmd, rfl⟩
    · split
      · exact ⟨"awake", rfl⟩
      · exact ⟨"Invalid command " ++ cmd ++ " provided.", rfl⟩
  · have h1 : startswith "bogus" "echo" = false := by decide
    have h2 : startswith "bogus" "sleep" = false := by decide
    simp [process_command, h1, h2, rx.of]

/-- Claim C8: the timeout variant is an identity pass-through: for every
command and every subscription, process_command_timeout delivers exactly the
trace of process_command (indeed the two observables are equal). -/
theorem process_command_timeout_identity :
    ∀ (cmd : String) (s : Nat),
      process_command_timeout cmd = process_command cmd
      ∧ (process_command_timeout cmd).subscribe s = (process_command cmd).subscribe s :=
  fun _ _ => ⟨rfl, rfl⟩

/-- Claim C9: process_command is total on strings: every input falls into
one of the three branches and each branch returns (normally) an observable
of a single result string, so the synchronous-raise path (a
WorkerInvocationError during flat_map) is unreachable for this worker. -/
theorem process_command_never_raises :
    ∀ cmd : String, ∃ r : String, process_command cmd = rx.of [r] := by
  intro cmd
  unfold process_command
  split
  · exact ⟨cmd, rfl⟩
  · split
    · exact ⟨"awake", rfl⟩
    · exact ⟨"Invalid command " ++ cmd ++ " provided.", rfl⟩

/-- Claim C10: classification is by string prefix, tested in the order
echo, then sleep, then the fallback: any string starting with echo is
echoed back verbatim, any other string starting with sleep yields awake,
and everything else yields the invalid-command message with the full
command interpolated. -/
theorem process_command_prefix_dispatch :
    ∀ cmd : String,
      (startswith cmd "echo" = true → process_command cmd = rx.of [cmd])
      ∧ (startswith cmd "echo" = false → startswith cmd "sleep" = true →
          process_command cmd = rx.of ["awake"])
      ∧ (startswith cmd "echo" = false → startswith cmd "sleep" = false →
          process_command cmd = rx.of ["Invalid command " ++ cmd ++ " provided."]) := by
  intro cmd
  refine ⟨?_, ?_, ?_⟩ <;> intros <;> simp [process_command, *]

/-- Witness for C10 at the inputs echoXYZ, sleepwalk and bogus. -/
theorem process_command_prefix_dispatch_witness :
    (startswith "echoXYZ" "echo" = true
      ∧ process_command "echoXYZ" = rx.of ["echoXYZ"])
    ∧ (startswith "sleepwalk" "echo" = false
      ∧ startswith "sleepwalk" "sleep" = true
      ∧ process_command "sleepwalk" = rx.of ["awake"])
    ∧ (startswith "bogus" "echo" = false
      ∧ startswith "bogus" "sleep" = false
      ∧ process_command "bogus" = rx.of ["Invalid command bogus provided."]) :=
  ⟨⟨by decide, (process_command_prefix_dispatch "echoXYZ").1 (by decide)⟩,
   ⟨by decide, by decide,
     (process_command_prefix_dispatch "sleepwalk").2.1 (by decide) (by decide)⟩,
   ⟨by decide, by decide,
     (process_command_prefix_dispatch "bogus").2.2 (by decide) (by decide)⟩⟩

theorem flatMapTrace_cons_done {A B : Type} (w : A → List (Notification B))
    (k : Nat) (a : A) (rest : List (Notification A)) (outs : List B)
    (h : runInner (w a) = (outs, InnerEnd.done)) :
    flatMapTrace w k (Notification.next a :: rest)
      = outs.map Notification.next ++ flatMapTrace w k rest := by
  simp [flatMapTrace, h]

theorem flatMapTrace_cons_pending {A B : Type} (w : A → List (Notification B))
    (k : Nat) (a : A) (rest : List (Notification A)) (outs : List B)
    (h : runInner (w a) = (outs, InnerEnd.pending)) :
    flatMapTrace w k (Notification.next a :: rest)
      = outs.map Notification.next ++ flatMapTrace w (k + 1) rest := by
  simp [flatMapTrace, h]

theorem flatMapTrace_cons_errored {A B : Type} (w : A → List (Notification B))
    (k : Nat) (a : A) (rest : List (Notification A)) (outs : List B) (c : String)
    (h : runInner (w a) = (outs, InnerEnd.errored c)) :
    flatMapTrace w k (Notification.next a :: rest)
      = outs.map Notification.next ++ [Notification.error c] := by
  simp [flatMapTrace, h]

/-- Merged trace when every worker in scope yields a single Next then
Completed: the inner values appear in source order and the stream ends with
Completed exactly when no earlier inner is still open. -/
theorem flatMapTrace_done_workers {A B : Type} (w : A → List (Notification B))
    (f : A → B) (S : List A)
    (hw : ∀ a ∈ S, w a = [Notification.next (f a), Notification.completed]) :
    ∀ k : Nat,
      flatMapTrace w k (S.map Notification.next ++ [Notification.completed])
        = S.map (fun a => Notification.next (f a))
          ++ (if k = 0 then [Notification.completed] else []) := by
  induction S with
  | nil => intro k; rfl
  | cons a S ih =>
    intro k
    have ha : runInner (w a) = ([f a], InnerEnd.done) := by
      rw [hw a (List.mem_cons_self a S)]; rfl
    have step := flatMapTrace_cons_done w k a
      (S.map Notification.next ++ [Notification.completed]) [f a] ha
    calc flatMapTrace w k ((a :: S).map Notification.next ++ [Notification.completed])
        = [f a].map Notification.next
            ++ flatMapTrace w k (S.map Notification.next ++ [Notification.completed]) := step
      _ = (a :: S).map (fun x => Notification.next (f x))
            ++ (if k = 0 then [Notification.completed] else []) := by
          rw [ih (fun b hb => hw b (List.mem_cons_of_mem a hb)) k]; rfl

/-- Claim C1: for any finite item sequence S and any worker whose trace for
every item of S is a single Next (of a value determined by the item) then
Completed, the merged FlatMap(of(S), worker) trace as built by
process_commands is the worker outputs in source order followed by exactly
one Completed: the Next payload list (hence its set) equals the worker
output list for S, the only terminal is one Completed, and that Completed is
the last event, emitted by the model only once the source has completed with
no inner subscription still open. -/
theorem flat_map_single_next_workers :
    ∀ (S : List String) (worker : String → Observable String)
      (f : String → String) (s : Nat),
      (∀ a ∈ S, (worker a).subscribe s
          = [Notification.next (f a), Notification.completed]) →
      (flat_map worker (rx.of S)).subscribe s
          = S.map (fun a => Notification.next (f a)) ++ [Notification.completed]
      ∧ nextValues ((flat_map worker (rx.of S)).subscribe s) = S.map f
      ∧ terminals ((flat_map worker (rx.of S)).subscribe s) = [Notification.completed]
      ∧ ((flat_map worker (rx.of S)).subscribe s).getLast?
          = some Notification.completed := by
  intro S worker f s hw
  have htr : (flat_map worker (rx.of S)).subscribe s
      = S.map (fun a => Notification.next (f a)) ++ [Notification.completed] := by
    have := flatMapTrace_done_workers (fun a => (worker a).subscribe s) f S hw 0
    simpa [flat_map, rx.of] using this
  have hmap : S.map (fun a => Notification.next (f a))
      = (S.map f).map Notification.next := by
    rw [List.map_map]
    rfl
  refine ⟨htr, ?_, ?_, ?_⟩
  · rw [htr, hmap, nextValues_map_next_append]
    simp [nextValues]
  · rw [htr, hmap, terminals_map_next_append]
    rfl
  · rw [htr]
    exact List.getLast?_concat _

/-- Witness for C1 with the identity worker on the items u and v. -/
theorem flat_map_single_next_workers_witness :
    (∀ a ∈ ["u", "v"], ((fun c : String => rx.of [c]) a).subscribe 0
        = [Notification.next a, Notification.completed])
    ∧ (flat_map (fun c : String => rx.of [c]) (rx.of ["u", "v"])).subscribe 0
        = [Notification.next "u", Notification.next "v", Notification.completed] :=
  ⟨fun _ _ => rfl,
   (flat_map_single_next_workers ["u", "v"] (fun c => rx.of [c])
      (fun c => c) 0 (fun _ _ => rfl)).1⟩

theorem wellFormed_map_next_append {T : Type} (bs : List T)
    (l : List (Notification T)) :
    wellFormed (bs.map Notification.next ++ l) = wellFormed l := by
  induction bs with
  | nil => rfl
  | cons b bs ih => exact ih

/-- Any merged trace produced by the FlatMap model is well formed, whatever
the source trace, the worker and the number of open inner subscriptions. -/
theorem wellFormed_flatMapTrace {A B : Type} (w : A → List (Notification B)) :
    ∀ (src : List (Notification A)) (k : Nat),
      wellFormed (flatMapTrace w k src) = true := by
  intro src
  induction src with
  | nil => intro k; rfl
  | cons n rest ih =>
    intro k
    match n with
    | .next a =>
      rcases hr : runInner (w a) with ⟨outs, e⟩
      match e with
      | .done =>
        rw [flatMapTrace_cons_done w k a rest outs hr, wellFormed_map_next_append]
        exact ih k
      | .pending =>
        rw [flatMapTrace_cons_pending w k a rest outs hr, wellFormed_map_next_append]
        exact ih (k + 1)
      | .errored c =>
        rw [flatMapTrace_cons_errored w k a rest outs c hr, wellFormed_map_next_append]
        rfl
    | .error c => rfl
    | .completed =>
      show wellFormed (if k = 0 then [Notification.completed] else []) = true
      cases k <;> rfl

/-- Claim C5: every subscription occurring in this program delivers a well
formed trace: the source of(commands), every inner observable returned by
the worker process_command_timeout, and the merged stream built by
process_commands all deliver zero or more Next events, at most one terminal
event (Error or Completed, never both), and nothing after a terminal. -/
theorem program_traces_well_formed :
    ∀ (commands : List String) (cmd : String) (s : Nat),
      wellFormed ((rx.of commands).subscribe s) = true
      ∧ wellFormed ((process_command_timeout cmd).subscribe s) = true
      ∧ wellFormed ((process_commands (rx.of commands)).subscribe s) = true := by
  intro commands cmd s
  refine ⟨?_, ?_, ?_⟩
  · show wellFormed (commands.map Notification.next ++ [Notification.completed]) = true
    rw [wellFormed_map_next_append]
    rfl
  · show wellFormed ((process_command cmd).subscribe s) = true
    unfold process_command
    split
    · rfl
    · split
      · rfl
      · rfl
  · exact wellFormed_flatMapTrace (fun a => (process_command_timeout a).subscribe s)
      ((rx.of commands).subscribe s) 0

/-- Merged trace when the inner observable of one source item errors while
every earlier inner completed or is still pending: the trace is the values
produced before the failure followed by that single Error, and nothing at
all from the items after the failing one. -/
theorem flatMapTrace_failfast {A B : Type} (w : A → List (Notification B))
    (a : A) (c : String) (S2 : List A) :
    ∀ S1 : List A,
      (∀ b ∈ S1, (∃ o, runInner (w b) = (o, InnerEnd.done))
          ∨ (∃ o, runInner (w b) = (o, InnerEnd.pending))) →
      (∃ o, runInner (w a) = (o, InnerEnd.errored c)) →
      ∀ k : Nat,
        flatMapTrace w k ((S1 ++ a :: S2).map Notification.next ++ [Notification.completed])
          = ((S1.flatMap fun b => (runInner (w b)).1)
              ++ (runInner (w a)).1).map Notification.next
            ++ [Notification.error c] := by
  intro S1
  induction S1 with
  | nil =>
    intro _ ha k
    obtain ⟨o, ho⟩ := ha
    show flatMapTrace w k
        (Notification.next a :: (S2.map Notification.next ++ [Notification.completed])) = _
    rw [flatMapTrace_cons_errored w k a _ o c ho]
    simp [ho]
  | cons b S1 ih =>
    intro h1 ha k
    have hrec := ih (fun x hx => h1 x (List.mem_cons_of_mem b hx)) ha
    rcases h1 b (List.mem_cons_self b S1) with ⟨o, ho⟩ | ⟨o, ho⟩
    · show flatMapTrace w k
          (Notification.next b :: ((S1 ++ a :: S2).map Notification.next
            ++ [Notification.completed])) = _
      rw [flatMapTrace_cons_done w k b _ o ho, hrec k]
      simp [ho, List.flatMap_cons, List.append_assoc]
    · show flatMapTrace w k
          (Notification.next b :: ((S1 ++ a :: S2).map Notification.next
            ++ [Notification.completed])) = _
      rw [flatMapTrace_cons_pending w k b _ o ho, hrec (k + 1)]
      simp [ho, List.flatMap_cons, List.append_assoc]

/-- Claim C4: if, for a FlatMap subscription, the inner observable of one
source item emits Error while every earlier inner has completed or is still
open (pending) and further source items remain, the merged stream delivers
exactly that Error as its single terminal event and as its last event; the
trace equation shows that nothing from any still-open inner stream and
nothing from the items after the failing one is delivered after the Error,
which is how the cancellation of the source subscription and of the open
inner subscriptions manifests on the delivered trace. -/
theorem flat_map_failfast :
    ∀ (S1 S2 : List String) (a : String) (worker : String → Observable String)
      (c : String) (s : Nat),
      (∀ b ∈ S1, (∃ o, runInner ((worker b).subscribe s) = (o, InnerEnd.done))
          ∨ (∃ o, runInner ((worker b).subscribe s) = (o, InnerEnd.pending))) →
      (∃ o, runInner ((worker a).subscribe s) = (o, InnerEnd.errored c)) →
      (flat_map worker (rx.of (S1 ++ a :: S2))).subscribe s
          = ((S1.flatMap fun b => (runInner ((worker b).subscribe s)).1)
              ++ (runInner ((worker a).subscribe s)).1).map Notification.next
            ++ [Notification.error c]
      ∧ terminals ((flat_map worker (rx.of (S1 ++ a :: S2))).subscribe s)
          = [Notification.error c]
      ∧ ((flat_map worker (rx.of (S1 ++ a :: S2))).subscribe s).getLast?
          = some (Notification.error c) := by
  intro S1 S2 a worker c s h1 ha
  have htr := flatMapTrace_failfast (fun b => (worker b).subscribe s) a c S2 S1 h1 ha 0
  refine ⟨htr, ?_, ?_⟩
  · show terminals (flatMapTrace (fun b => (worker b).subscribe s) 0
        ((S1 ++ a :: S2).map Notification.next ++ [Notification.completed]))
        = [Notification.error c]
    rw [htr, terminals_map_next_append]
    rfl
  · show (flatMapTrace (fun b => (worker b).subscribe s) 0
        ((S1 ++ a :: S2).map Notification.next ++ [Notification.completed])).getLast?
        = some (Notification.error c)
    rw [htr]
    exact List.getLast?_concat _

/-- Worker used in the fail-fast witness: its observable errors on commands
prefixed bad and echoes the command otherwise. -/
def failingWorker (cmd : String) : Observable String :=
  if startswith cmd "bad" then ⟨fun _ => [Notification.error "boom"]⟩
  else rx.of [cmd]

/-- Witness for C4: the worker errors on the second of three items; the
merged trace is the first item followed by the error, with nothing from the
third item. -/
theorem flat_map_failfast_witness :
    (∀ b ∈ ["g"], (∃ o, runInner ((failingWorker b).subscribe 0) = (o, InnerEnd.done))
        ∨ (∃ o, runInner ((failingWorker b).subscribe 0) = (o, InnerEnd.pending)))
    ∧ (∃ o, runInner ((failingWorker "bad").subscribe 0) = (o, InnerEnd.errored "boom"))
    ∧ (flat_map failingWorker (rx.of (["g"] ++ "bad" :: ["z"]))).subscribe 0
        = [Notification.next "g", Notification.error "boom"] := by
  have h1 : ∀ b ∈ ["g"],
      (∃ o, runInner ((failingWorker b).subscribe 0) = (o, InnerEnd.done))
      ∨ (∃ o, runInner ((failingWorker b).subscribe 0) = (o, InnerEnd.pending)) := by
    intro b hb
    rw [List.mem_singleton] at hb
    subst hb
    exact Or.inl ⟨["g"], by decide⟩
  have ha : ∃ o, runInner ((failingWorker "bad").subscribe 0)
      = (o, InnerEnd.errored "boom") := ⟨[], by decide⟩
  exact ⟨h1, ha,
    (flat_map_failfast ["g"] ["z"] "bad" failingWorker "boom" 0 h1 ha).1⟩

/-- Counterexample to claim C2 as stated: for the all-echo command sequence
of scenario A the sink supplied at subscribe time receives exactly the two
echoed strings and does not receive the Completed-derived message, because
the bare function passed to subscribe is the on_next capability only and
process_errors is not applied anywhere in the pipeline. -/
theorem print_sink_misses_shutdown_message :
    subscribeNext (process_commands (rx.of ["echo before", "echo after"])) 0
        = ["echo before", "echo after"]
    ∧ "No more commands to process. Shutting down!"
        ∉ subscribeNext (process_commands (rx.of ["echo before", "echo after"])) 0 := by
  constructor
  · decide
  · decide

/-- Claim C2 amended: the consumer supplied at subscribe time (the print
sink) receives the Next payloads, one per Next notification (for Next
notifications these coincide with the reduced values of process_errors,
which passes Next values through unchanged); for an all-echo command
sequence the delivered output is exactly the echoed command strings.  The
merged stream does end with a Completed notification and process_errors
would map it to the shutdown message, but that message is not delivered to
the sink because process_errors is not wired into the pipeline. -/
theorem print_sink_receives_next_values :
    ∀ (cmds : List String) (s : Nat),
      (∀ c ∈ cmds, startswith c "echo" = true) →
      subscribeNext (process_commands (rx.of cmds)) s = cmds
      ∧ ((process_commands (rx.of cmds)).subscribe s).getLast?
          = some Notification.completed
      ∧ process_errors Notification.completed
          = "No more commands to process. Shutting down!" := by
  intro cmds s h
  have hw : ∀ a ∈ cmds, (process_command_timeout a).subscribe s
      = [Notification.next a, Notification.completed] := by
    intro a hamem
    have he : startswith a "echo" = true := h a hamem
    show (process_command a).subscribe s = _
    have hpc : process_command a = rx.of [a] := by simp [process_command, he]
    rw [hpc]
    rfl
  have htr : (process_commands (rx.of cmds)).subscribe s
      = cmds.map Notification.next ++ [Notification.completed] := by
    have := flatMapTrace_done_workers
      (fun a => (process_command_timeout a).subscribe s) (fun x => x) cmds hw 0
    simpa using this
  refine ⟨?_, ?_, rfl⟩
  · rw [subscribeNext_eq, htr, nextValues_map_next_append]
    simp [nextValues]
  · rw [htr]
    exact List.getLast?_concat _

/-- Witness for the amended C2 at the scenario A commands. -/
theorem print_sink_receives_next_values_witness :
    (∀ c ∈ ["echo before", "echo after"], startswith c "echo" = true)
    ∧ subscribeNext (process_commands (rx.of ["echo before", "echo after"])) 0
        = ["echo before", "echo after"] :=
  ⟨by decide,
   (print_sink_receives_next_values ["echo before", "echo after"] 0 (by decide)).1⟩
